import Mathlib

/-!
Verification of the Manifest Diff Engine and Durable Page-Anchoring subsystem
of the gitlab-composer-diff browser extension.

The definitions below are a shallow embedding of the JavaScript source:

* `src/extension/modules/composer-diff.js` — `parseComposerLock`,
  `generateDiff`, `generateAddedPackagesHtml`, `generateUpdatedPackagesHtml`,
  `generateRemovedPackagesHtml`, `generateHtml`.
* `src/extension/content.js` — the inline classifier `getDiff`, the inline
  renderer, the `insertDiffIntoPage` fallback chain, and the scroll-listener
  guard.
* `src/extension/modules/ui.js` — `insertDiffIntoPage` (removal of the
  pre-existing panel, content-element search, prepend insertion) and
  `addScrollEventListener`.

JavaScript objects used as string-keyed records (`Record<string, Diff>`) are
embedded as association lists `List (String × Diff)` in insertion order;
property assignment `obj[k] = v` is `setEntry` (in-place replacement of the
value when the key is present, preserving its position, otherwise an append),
matching JS object key-ordering semantics.  `JSON.parse` is embedded as an
input already split into its outcomes: `LockContent` covers the lock-shaped
results and parse errors used by the classification and rendering
development, while `JsLockContent`/`JsValue` cover the full outcome space —
including valid JSON that is not a lock-shaped object — for the analysis of
which inputs make the entry points throw.
-/

/-- The two sections of a composer.lock manifest: `'require'` and
`'require-dev'` in the source. -/
inductive PkgSection where
  | require
  | requireDev
deriving DecidableEq, Repr

/-- A `{name, version}` record of one package in a manifest section
(`ComposerPackage` in the JSDoc of composer-diff.js). -/
structure ComposerPackage where
  name : String
  version : String
deriving DecidableEq, Repr

/-- The `Diff` record of composer-diff.js: per-package change record with
nullable sides. -/
structure Diff where
  name : String
  previousSection : Option PkgSection
  newSection : Option PkgSection
  previousVersion : Option String
  newVersion : Option String
deriving DecidableEq, Repr

/-- The object returned by `JSON.parse` on a composer.lock: the two section
arrays, each possibly absent (`undefined`), as used by
`oldLock.packages = oldLock.packages || []` in generateDiff. -/
structure RawLock where
  packages : Option (List ComposerPackage)
  packagesDev : Option (List ComposerPackage)
deriving DecidableEq, Repr

/-- A lock object with both section arrays present (the shape the inline
`getDiff` of content.js requires, and the shape after the `|| []`
normalization in the modular generateDiff). -/
structure Lock where
  packages : List ComposerPackage
  packagesDev : List ComposerPackage
deriving DecidableEq, Repr

/-- Normalization lines 54-55 and 78-79 of composer-diff.js:
`lock.packages = lock.packages || []` on both sections. -/
def normLock (r : RawLock) : Lock :=
  { packages := r.packages.getD [], packagesDev := r.packagesDev.getD [] }

/-- Raw composer.lock content restricted to the two outcomes the
classification and rendering functions complete normally on: text that
parses to a lock-shaped object, or text on which `JSON.parse` throws (empty
or invalid).  The full `JSON.parse` outcome space — including valid JSON
that is not lock-shaped, on which the entry points throw — is
`JsLockContent`, defined with the error-path analysis further below. -/
inductive LockContent where
  | valid (lock : RawLock)
  | malformed (text : String)
deriving DecidableEq, Repr

/-- Lines 28-35 of composer-diff.js: `parseComposerLock` wraps `JSON.parse`
in try/catch; on a parse error it logs and returns
`{ packages: [], 'packages-dev': [] }`. -/
def parseComposerLock : LockContent → RawLock
  | .valid lock => lock
  | .malformed _ => { packages := some [], packagesDev := some [] }

/-- Association-list embedding of `Record<string, Diff>` property read
`obj[k]`. -/
def alookup (k : String) : List (String × Diff) → Option Diff
  | [] => none
  | (k', v) :: rest => if k' = k then some v else alookup k rest

/-- Association-list embedding of `Record<string, Diff>` property write
`obj[k] = v`: replaces in place when the key exists (JS keeps the original
key position), otherwise appends. -/
def setEntry (m : List (String × Diff)) (k : String) (v : Diff) :
    List (String × Diff) :=
  match m with
  | [] => [(k, v)]
  | (k', v') :: rest =>
    if k' = k then (k, v) :: rest else (k', v') :: setEntry rest k v

/-- The `Diff` record written for an old-side package in lines 57-75 of
composer-diff.js (previous side populated, new side null). -/
def oldDiffOf (sec : PkgSection) (p : ComposerPackage) : Diff :=
  { name := p.name
    previousSection := some sec
    newSection := none
    previousVersion := some p.version
    newVersion := none }

/-- Lines 57-75 of composer-diff.js (and the identical loops in the inline
`getDiff` of content.js): one `forEach` pass over an old-side section array,
writing `diffList[pkg.name] = {...}`.  The section literal (`'require'` or
`'require-dev'`) is the `sec` parameter. -/
def processOldSection (sec : PkgSection) :
    List (String × Diff) → List ComposerPackage → List (String × Diff)
  | m, [] => m
  | m, p :: ps => processOldSection sec (setEntry m p.name (oldDiffOf sec p)) ps

/-- Lines 81-111 of composer-diff.js (and the identical loops in content.js):
one `forEach` pass over a new-side section array; an existing entry gets its
`newVersion`/`newSection` overwritten in place, otherwise a fresh added-shaped
entry is written. -/
def processNewSection (sec : PkgSection) :
    List (String × Diff) → List ComposerPackage → List (String × Diff)
  | m, [] => m
  | m, p :: ps =>
    processNewSection sec
      (match alookup p.name m with
       | some d =>
         setEntry m p.name
           { d with newVersion := some p.version, newSection := some sec }
       | none =>
         setEntry m p.name
           { name := p.name
             previousSection := none
             newSection := some sec
             previousVersion := none
             newVersion := some p.version })
      ps

/-- The combined `diffList` of generateDiff (composer-diff.js lines 50-111)
and of the inline `getDiff` (content.js lines 384-436): old `packages`, old
`packages-dev`, new `packages`, new `packages-dev`, in program order. -/
def buildDiffList (oldLock newLock : Lock) : List (String × Diff) :=
  processNewSection .requireDev
    (processNewSection .require
      (processOldSection .requireDev
        (processOldSection .require [] oldLock.packages)
        oldLock.packagesDev)
      newLock.packages)
    newLock.packagesDev

/-- Branch 1 of the categorization loop (composer-diff.js line 126):
`previousSection === null && newSection !== null`. -/
def isAdded (d : Diff) : Bool :=
  d.previousSection.isNone && d.newSection.isSome

/-- Branch 2 of the categorization loop (composer-diff.js line 129):
`previousSection !== null && newSection === null`. -/
def isRemoved (d : Diff) : Bool :=
  d.previousSection.isSome && d.newSection.isNone

/-- Branch 3 of the categorization loop of the modular generateDiff
(composer-diff.js lines 132-133): both sides present and the version OR the
section changed. -/
def isUpdated (d : Diff) : Bool :=
  d.previousSection.isSome && d.newSection.isSome &&
    (decide (d.previousVersion ≠ d.newVersion) ||
     decide (d.previousSection ≠ d.newSection))

/-- Branch 3 of the categorization loop of the inline `getDiff`
(content.js line 459): both sides present and the version changed — the
section-change disjunct of the modular classifier is absent. -/
def isUpdatedInline (d : Diff) : Bool :=
  d.previousSection.isSome && d.newSection.isSome &&
    decide (d.previousVersion ≠ d.newVersion)

/-- The `{added, updated, removed}` result of both classifiers.  Each
category is a name-keyed record; since `diffList` never holds two entries
with the same key, the `addedPackages[diff.name] = diff` writes of the
source loop are in-order appends, i.e. a filter of `diffList`. -/
structure DiffResult where
  added : List (String × Diff)
  updated : List (String × Diff)
  removed : List (String × Diff)
deriving DecidableEq, Repr

/-- Categorization loop of the modular generateDiff (composer-diff.js lines
123-137) applied to an already-built `diffList`: the three branch conditions
are mutually exclusive, so the `if / else if` chain is three filters. -/
def generateDiffFromLocks (oldLock newLock : Lock) : DiffResult :=
  let diffList := buildDiffList oldLock newLock
  { added := diffList.filter (fun e => isAdded e.2)
    updated := diffList.filter (fun e => isUpdated e.2)
    removed := diffList.filter (fun e => isRemoved e.2) }

/-- Lines 43-150 of composer-diff.js: `generateDiff(oldContent, newContent)`
— parse both contents (malformed text yields the empty lock), normalize the
possibly-missing section arrays, build `diffList` and categorize. -/
def generateDiff (oldContent newContent : LockContent) : DiffResult :=
  generateDiffFromLocks
    (normLock (parseComposerLock oldContent))
    (normLock (parseComposerLock newContent))

/-- Lines 380-465 of content.js: the inline classifier `getDiff(oldLock,
newLock)`, whose `diffList` construction is line-for-line the same as the
modular one but whose `updated` condition omits the section-change check. -/
def getDiff (oldLock newLock : Lock) : DiffResult :=
  let diffList := buildDiffList oldLock newLock
  { added := diffList.filter (fun e => isAdded e.2)
    updated := diffList.filter (fun e => isUpdatedInline e.2)
    removed := diffList.filter (fun e => isRemoved e.2) }

/-- Version/section of the last `forEach`-written occurrence of name `n` in
one section array: the value that survives the overwriting passes
(`diffList[p.name] = ...` wins for the later occurrence). -/
def lastEntry (n : String) : List ComposerPackage → Option String
  | [] => none
  | p :: ps =>
    match lastEntry n ps with
    | some v => some v
    | none => if p.name = n then some p.version else none

/-- The effective registry view of one snapshot produced by the two
overwriting section passes: the `packages-dev` pass runs second, so a name
present there wins; within a section the last occurrence wins. -/
def effectiveEntry (lock : Lock) (n : String) : Option (PkgSection × String) :=
  match lastEntry n lock.packagesDev with
  | some v => some (.requireDev, v)
  | none =>
    match lastEntry n lock.packages with
    | some v => some (.require, v)
    | none => none

/-- The spec's `PackageRegistry` of a snapshot: name to section and version,
as determined by parsing plus the overwriting section passes. -/
def registryOf (c : LockContent) (n : String) : Option (PkgSection × String) :=
  effectiveEntry (normLock (parseComposerLock c)) n

/-- Result of updating the entry for name `n` with a new-side occurrence
`(sec, v)`: exactly what one iteration of the new-side `forEach` writes. -/
def applyNew (prior : Option Diff) (n : String) (sec : PkgSection)
    (v : String) : Diff :=
  match prior with
  | some d => { d with newVersion := some v, newSection := some sec }
  | none =>
    { name := n
      previousSection := none
      newSection := some sec
      previousVersion := none
      newVersion := some v }

/-- The final `diffList` entry for a name, as a function of its effective
old-side and new-side registry entries. -/
def combine (n : String) :
    Option (PkgSection × String) → Option (PkgSection × String) → Option Diff
  | none, none => none
  | some (s, v), none =>
    some { name := n
           previousSection := some s
           newSection := none
           previousVersion := some v
           newVersion := none }
  | none, some (s, v) =>
    some { name := n
           previousSection := none
           newSection := some s
           previousVersion := none
           newVersion := some v }
  | some (s₁, v₁), some (s₂, v₂) =>
    some { name := n
           previousSection := some s₁
           newSection := some s₂
           previousVersion := some v₁
           newVersion := some v₂ }

/-- Sanity check: the worked scenario of the specification — `foo/bar`
upgraded from 1.0 to 2.0 in place, `baz/qux` 0.1 newly added to the
development section. -/
theorem generateDiff_scenario_check :
    generateDiff
      (.valid { packages := some [⟨"foo/bar", "1.0"⟩], packagesDev := some [] })
      (.valid { packages := some [⟨"foo/bar", "2.0"⟩],
                packagesDev := some [⟨"baz/qux", "0.1"⟩] }) =
    { added := [("baz/qux",
        { name := "baz/qux", previousSection := none,
          newSection := some .requireDev, previousVersion := none,
          newVersion := some "0.1" })]
      updated := [("foo/bar",
        { name := "foo/bar", previousSection := some .require,
          newSection := some .require, previousVersion := some "1.0",
          newVersion := some "2.0" })]
      removed := [] } := by decide

/-! ### Lookup characterization of the diff-list construction -/

theorem alookup_setEntry (k : String) (m : List (String × Diff)) (k' : String)
    (v : Diff) :
    alookup k (setEntry m k' v) = if k' = k then some v else alookup k m := by
  induction m with
  | nil => simp [setEntry, alookup]
  | cons hd tl ih =>
    obtain ⟨k'', v''⟩ := hd
    by_cases h1 : k'' = k'
    · subst h1
      simp only [setEntry, if_pos rfl, alookup]
      by_cases h2 : k'' = k <;> simp [h2, alookup]
    · simp only [setEntry, if_neg h1, alookup]
      by_cases h2 : k'' = k
      · subst h2
        have : ¬ k' = k'' := fun h => h1 h.symm
        simp [this]
      · simp [h2, ih]

theorem processOldSection_alookup (sec : PkgSection)
    (ps : List ComposerPackage) :
    ∀ (m : List (String × Diff)) (n : String),
      alookup n (processOldSection sec m ps) =
        match lastEntry n ps with
        | some v => some (oldDiffOf sec ⟨n, v⟩)
        | none => alookup n m := by
  induction ps with
  | nil => intro m n; rfl
  | cons p ps ih =>
    intro m n
    simp only [processOldSection, lastEntry]
    rw [ih]
    cases h : lastEntry n ps with
    | some v => simp
    | none =>
      simp only
      rw [alookup_setEntry]
      by_cases h2 : p.name = n
      · subst h2; simp [oldDiffOf]
      · simp [h2]

theorem processNewSection_cons (sec : PkgSection) (m : List (String × Diff))
    (p : ComposerPackage) (ps : List ComposerPackage) :
    processNewSection sec m (p :: ps) =
      processNewSection sec
        (setEntry m p.name (applyNew (alookup p.name m) p.name sec p.version))
        ps := by
  cases h : alookup p.name m <;> simp [processNewSection, applyNew, h]

theorem applyNew_applyNew (prior : Option Diff) (n : String)
    (sec sec' : PkgSection) (w v : String) :
    applyNew (some (applyNew prior n sec w)) n sec' v =
      applyNew prior n sec' v := by
  cases prior <;> rfl

theorem processNewSection_alookup (sec : PkgSection)
    (ps : List ComposerPackage) :
    ∀ (m : List (String × Diff)) (n : String),
      alookup n (processNewSection sec m ps) =
        match lastEntry n ps with
        | some v => some (applyNew (alookup n m) n sec v)
        | none => alookup n m := by
  induction ps with
  | nil => intro m n; rfl
  | cons p ps ih =>
    intro m n
    rw [processNewSection_cons, ih]
    simp only [lastEntry]
    cases h : lastEntry n ps with
    | some v =>
      simp only
      rw [alookup_setEntry]
      by_cases h2 : p.name = n
      · subst h2; rw [if_pos rfl, applyNew_applyNew]
      · simp [h2]
    | none =>
      simp only
      rw [alookup_setEntry]
      by_cases h2 : p.name = n
      · subst h2; simp
      · simp [h2]

theorem buildDiffList_alookup (oldLock newLock : Lock) (n : String) :
    alookup n (buildDiffList oldLock newLock) =
      combine n (effectiveEntry oldLock n) (effectiveEntry newLock n) := by
  unfold buildDiffList
  rw [processNewSection_alookup, processNewSection_alookup,
    processOldSection_alookup, processOldSection_alookup]
  simp only [effectiveEntry, alookup]
  cases h1 : lastEntry n oldLock.packagesDev <;>
    cases h2 : lastEntry n oldLock.packages <;>
    cases h3 : lastEntry n newLock.packages <;>
    cases h4 : lastEntry n newLock.packagesDev <;>
    simp [combine, applyNew, oldDiffOf]

/-! ### Key uniqueness of the diff list -/

theorem mem_keys_setEntry (m : List (String × Diff)) (k : String) (v : Diff)
    (a : String) :
    a ∈ (setEntry m k v).map Prod.fst ↔ a ∈ m.map Prod.fst ∨ a = k := by
  induction m with
  | nil => simp [setEntry]
  | cons hd tl ih =>
    obtain ⟨k', v'⟩ := hd
    by_cases h1 : k' = k
    · subst h1
      simp only [setEntry, eq_self_iff_true, if_true, List.map_cons,
        List.mem_cons]
      tauto
    · simp only [setEntry, if_neg h1, List.map_cons, List.mem_cons, ih]
      tauto

theorem setEntry_keys_nodup (m : List (String × Diff)) (k : String) (v : Diff)
    (h : (m.map Prod.fst).Nodup) : ((setEntry m k v).map Prod.fst).Nodup := by
  induction m with
  | nil => simp [setEntry]
  | cons hd tl ih =>
    obtain ⟨k', v'⟩ := hd
    simp only [List.map_cons, List.nodup_cons] at h
    by_cases h1 : k' = k
    · subst h1
      simpa [setEntry] using h
    · simp only [setEntry, if_neg h1, List.map_cons, List.nodup_cons,
        mem_keys_setEntry]
      exact ⟨fun hc => hc.elim h.1 h1, ih h.2⟩

theorem processOldSection_keys_nodup (sec : PkgSection)
    (ps : List ComposerPackage) :
    ∀ (m : List (String × Diff)), (m.map Prod.fst).Nodup →
      ((processOldSection sec m ps).map Prod.fst).Nodup := by
  induction ps with
  | nil => intro m h; exact h
  | cons p ps ih =>
    intro m h
    exact ih _ (setEntry_keys_nodup _ _ _ h)

theorem processNewSection_keys_nodup (sec : PkgSection)
    (ps : List ComposerPackage) :
    ∀ (m : List (String × Diff)), (m.map Prod.fst).Nodup →
      ((processNewSection sec m ps).map Prod.fst).Nodup := by
  induction ps with
  | nil => intro m h; exact h
  | cons p ps ih =>
    intro m h
    rw [processNewSection_cons]
    exact ih _ (setEntry_keys_nodup _ _ _ h)

theorem buildDiffList_keys_nodup (oldLock newLock : Lock) :
    ((buildDiffList oldLock newLock).map Prod.fst).Nodup := by
  unfold buildDiffList
  apply processNewSection_keys_nodup
  apply processNewSection_keys_nodup
  apply processOldSection_keys_nodup
  apply processOldSection_keys_nodup
  simp

/-! ### Lookup facts about association lists and filters -/

theorem alookup_eq_none (k : String) (m : List (String × Diff))
    (h : k ∉ m.map Prod.fst) : alookup k m = none := by
  induction m with
  | nil => rfl
  | cons hd tl ih =>
    obtain ⟨k', v'⟩ := hd
    simp only [List.map_cons, List.mem_cons] at h
    push_neg at h
    have hne : ¬ k' = k := Ne.symm h.1
    simp only [alookup, if_neg hne]
    exact ih h.2

theorem alookup_of_mem (k : String) (d : Diff) (m : List (String × Diff))
    (hnd : (m.map Prod.fst).Nodup) (hmem : (k, d) ∈ m) :
    alookup k m = some d := by
  induction m with
  | nil => cases hmem
  | cons hd tl ih =>
    obtain ⟨k', v'⟩ := hd
    simp only [List.map_cons, List.nodup_cons] at hnd
    rcases List.mem_cons.mp hmem with heq | htl
    · obtain ⟨h1, h2⟩ := Prod.mk.injEq .. ▸ heq.symm
      subst h1; subst h2
      simp [alookup]
    · have hk : k' ≠ k := by
        intro h; subst h
        exact hnd.1 (List.mem_map.mpr ⟨(k', d), htl, rfl⟩)
      simp only [alookup, if_neg hk]
      exact ih hnd.2 htl

theorem alookup_filter (p : String × Diff → Bool) (m : List (String × Diff))
    (k : String) (hnd : (m.map Prod.fst).Nodup) :
    alookup k (m.filter p) =
      match alookup k m with
      | some d => if p (k, d) then some d else none
      | none => none := by
  induction m with
  | nil => rfl
  | cons hd tl ih =>
    obtain ⟨k', v'⟩ := hd
    simp only [List.map_cons, List.nodup_cons] at hnd
    by_cases hpk : p (k', v')
    · rw [List.filter_cons_of_pos hpk]
      simp only [alookup]
      by_cases hk : k' = k
      · subst hk; simp [hpk]
      · simp only [if_neg hk]
        exact ih hnd.2
    · rw [List.filter_cons_of_neg hpk]
      simp only [alookup]
      by_cases hk : k' = k
      · rw [if_pos hk]
        subst hk
        have hknotin : k' ∉ (tl.filter p).map Prod.fst := by
          intro hc
          rcases List.mem_map.mp hc with ⟨e, he, hfst⟩
          exact hnd.1 (List.mem_map.mpr ⟨e, List.mem_of_mem_filter he, hfst⟩)
        rw [alookup_eq_none _ _ hknotin]
        simp [hpk]
      · rw [if_neg hk]
        exact ih hnd.2

theorem generateDiffFromLocks_alookup (oldLock newLock : Lock) (n : String) :
    (alookup n (generateDiffFromLocks oldLock newLock).added =
      match combine n (effectiveEntry oldLock n) (effectiveEntry newLock n) with
      | some d => if isAdded d then some d else none
      | none => none) ∧
    (alookup n (generateDiffFromLocks oldLock newLock).updated =
      match combine n (effectiveEntry oldLock n) (effectiveEntry newLock n) with
      | some d => if isUpdated d then some d else none
      | none => none) ∧
    (alookup n (generateDiffFromLocks oldLock newLock).removed =
      match combine n (effectiveEntry oldLock n) (effectiveEntry newLock n) with
      | some d => if isRemoved d then some d else none
      | none => none) := by
  have hnd := buildDiffList_keys_nodup oldLock newLock
  have hch := buildDiffList_alookup oldLock newLock n
  refine ⟨?_, ?_, ?_⟩ <;>
    · show alookup n ((buildDiffList oldLock newLock).filter _) = _
      rw [alookup_filter _ _ _ hnd, hch]

/-! ### No-op records and the reflexivity of classification -/

theorem buildDiffList_self_mem (L : Lock) (e : String × Diff)
    (he : e ∈ buildDiffList L L) :
    isAdded e.2 = false ∧ isUpdated e.2 = false ∧ isRemoved e.2 = false := by
  obtain ⟨k, d⟩ := e
  have hl : alookup k (buildDiffList L L) = some d :=
    alookup_of_mem _ _ _ (buildDiffList_keys_nodup L L) he
  rw [buildDiffList_alookup] at hl
  cases hee : effectiveEntry L k with
  | none => rw [hee] at hl; cases hl
  | some sv =>
    obtain ⟨s, v⟩ := sv
    rw [hee] at hl
    simp only [combine, Option.some.injEq] at hl
    subst hl
    simp [isAdded, isUpdated, isRemoved]

theorem generateDiffFromLocks_self (L : Lock) :
    generateDiffFromLocks L L = { added := [], updated := [], removed := [] } := by
  show DiffResult.mk _ _ _ = _
  simp only [DiffResult.mk.injEq]
  refine ⟨?_, ?_, ?_⟩ <;>
    · rw [List.filter_eq_nil_iff]
      intro a ha
      have h := buildDiffList_self_mem L a ha
      simp [h.1, h.2.1, h.2.2]

/-- C5: for every registry R (any parsed lock content), classifying R against
itself returns three empty categories; and, generally, a package whose
effective registry entry (section and version) is identical on both sides is
materialized in none of added, updated, removed. -/
theorem classify_self_empty :
    (∀ c : LockContent,
      generateDiff c c = { added := [], updated := [], removed := [] }) ∧
    (∀ (c₁ c₂ : LockContent) (n : String) (s : PkgSection) (v : String),
      registryOf c₁ n = some (s, v) → registryOf c₂ n = some (s, v) →
        alookup n (generateDiff c₁ c₂).added = none ∧
        alookup n (generateDiff c₁ c₂).updated = none ∧
        alookup n (generateDiff c₁ c₂).removed = none) := by
  constructor
  · intro c
    exact generateDiffFromLocks_self _
  · intro c₁ c₂ n s v h1 h2
    unfold registryOf at h1 h2
    have h := generateDiffFromLocks_alookup
      (normLock (parseComposerLock c₁)) (normLock (parseComposerLock c₂)) n
    rw [h1, h2] at h
    simp only [combine] at h
    unfold generateDiff
    refine ⟨?_, ?_, ?_⟩
    · rw [h.1]; simp [isAdded]
    · rw [h.2.1]; simp [isUpdated]
    · rw [h.2.2]; simp [isRemoved]

/-- Witness for C5 at concrete inputs: a one-package snapshot diffed against
itself, and a shared package (same section and version, different position)
across two different snapshots. -/
theorem classify_self_empty_witness :
    generateDiff (.valid { packages := some [⟨"a", "1"⟩], packagesDev := some [] })
        (.valid { packages := some [⟨"a", "1"⟩], packagesDev := some [] }) =
      { added := [], updated := [], removed := [] } ∧
    (alookup "a" (generateDiff
        (.valid { packages := some [⟨"a", "1"⟩], packagesDev := some [] })
        (.valid { packages := some [⟨"z", "9"⟩, ⟨"a", "1"⟩],
                  packagesDev := some [] })).added = none ∧
     alookup "a" (generateDiff
        (.valid { packages := some [⟨"a", "1"⟩], packagesDev := some [] })
        (.valid { packages := some [⟨"z", "9"⟩, ⟨"a", "1"⟩],
                  packagesDev := some [] })).updated = none ∧
     alookup "a" (generateDiff
        (.valid { packages := some [⟨"a", "1"⟩], packagesDev := some [] })
        (.valid { packages := some [⟨"z", "9"⟩, ⟨"a", "1"⟩],
                  packagesDev := some [] })).removed = none) :=
  ⟨classify_self_empty.1 _,
   classify_self_empty.2 _ _ "a" .require "1" (by decide) (by decide)⟩

/-- C1: a package present in both snapshots with identical version but
different section is classified only into `updated`, with `previousVersion`
equal to `newVersion`. -/
theorem generateDiff_section_change_only_updated
    (c₁ c₂ : LockContent) (n : String) (s₁ s₂ : PkgSection) (v : String)
    (h₁ : registryOf c₁ n = some (s₁, v))
    (h₂ : registryOf c₂ n = some (s₂, v))
    (hs : s₁ ≠ s₂) :
    alookup n (generateDiff c₁ c₂).updated =
      some { name := n, previousSection := some s₁, newSection := some s₂,
             previousVersion := some v, newVersion := some v } ∧
    alookup n (generateDiff c₁ c₂).added = none ∧
    alookup n (generateDiff c₁ c₂).removed = none := by
  unfold registryOf at h₁ h₂
  have h := generateDiffFromLocks_alookup
    (normLock (parseComposerLock c₁)) (normLock (parseComposerLock c₂)) n
  rw [h₁, h₂] at h
  simp only [combine] at h
  unfold generateDiff
  refine ⟨?_, ?_, ?_⟩
  · rw [h.2.1]; simp [isUpdated, hs]
  · rw [h.1]; simp [isAdded]
  · rw [h.2.2]; simp [isRemoved]

/-- Witness for C1: `a/a` at version `1.0` moves from the direct section to
the development section. -/
theorem generateDiff_section_change_only_updated_witness :
    alookup "a/a" (generateDiff
        (.valid { packages := some [⟨"a/a", "1.0"⟩], packagesDev := some [] })
        (.valid { packages := some [],
                  packagesDev := some [⟨"a/a", "1.0"⟩] })).updated =
      some { name := "a/a", previousSection := some .require,
             newSection := some .requireDev, previousVersion := some "1.0",
             newVersion := some "1.0" } ∧
    alookup "a/a" (generateDiff
        (.valid { packages := some [⟨"a/a", "1.0"⟩], packagesDev := some [] })
        (.valid { packages := some [],
                  packagesDev := some [⟨"a/a", "1.0"⟩] })).added = none ∧
    alookup "a/a" (generateDiff
        (.valid { packages := some [⟨"a/a", "1.0"⟩], packagesDev := some [] })
        (.valid { packages := some [],
                  packagesDev := some [⟨"a/a", "1.0"⟩] })).removed = none :=
  generateDiff_section_change_only_updated _ _ "a/a" .require .requireDev "1.0"
    (by decide) (by decide) (by decide)

/-! ### Malformed old snapshot and last-write-wins duplicates -/

/-- C6: malformed old manifest text plus a valid new manifest with exactly one
package (in either section): the parser yields the empty registry object and
generateDiff reports that single package as added, with updated and removed
empty. -/
theorem malformed_old_single_added (s : String) (p : ComposerPackage) :
    parseComposerLock (.malformed s) =
      { packages := some [], packagesDev := some [] } ∧
    generateDiff (.malformed s)
        (.valid { packages := some [p], packagesDev := some [] }) =
      { added := [(p.name,
          { name := p.name, previousSection := none,
            newSection := some .require, previousVersion := none,
            newVersion := some p.version })]
        updated := []
        removed := [] } ∧
    generateDiff (.malformed s)
        (.valid { packages := some [], packagesDev := some [p] }) =
      { added := [(p.name,
          { name := p.name, previousSection := none,
            newSection := some .requireDev, previousVersion := none,
            newVersion := some p.version })]
        updated := []
        removed := [] } := by
  refine ⟨rfl, ?_, ?_⟩ <;> rfl

/-- The array a section literal names in a lock object: `lock.packages` for
`'require'`, `lock['packages-dev']` for `'require-dev'`. -/
def sectionList (L : Lock) : PkgSection → List ComposerPackage
  | .require => L.packages
  | .requireDev => L.packagesDev

theorem lastEntry_append_some (n v : String) (ys : List ComposerPackage)
    (h : lastEntry n ys = some v) (xs : List ComposerPackage) :
    lastEntry n (xs ++ ys) = some v := by
  induction xs with
  | nil => simpa using h
  | cons p xs ih => simp [lastEntry, ih]

theorem lastEntry_eq_none_of_not_mem (n : String)
    (l : List ComposerPackage) (h : n ∉ l.map ComposerPackage.name) :
    lastEntry n l = none := by
  induction l with
  | nil => rfl
  | cons p ps ih =>
    simp only [List.map_cons, List.mem_cons] at h
    push_neg at h
    have hn : lastEntry n ps = none := ih h.2
    have hp : ¬ p.name = n := fun hh => h.1 hh.symm
    simp [lastEntry, hn, hp]

theorem lastEntry_dup_general (n v₁ v₂ : String)
    (l₁ l₂ l₃ : List ComposerPackage)
    (h3 : n ∉ l₃.map ComposerPackage.name) :
    lastEntry n (l₁ ++ ⟨n, v₁⟩ :: (l₂ ++ ⟨n, v₂⟩ :: l₃)) = some v₂ := by
  apply lastEntry_append_some
  have hl3 : lastEntry n l₃ = none := lastEntry_eq_none_of_not_mem n l₃ h3
  have h2 : lastEntry n (⟨n, v₂⟩ :: l₃) = some v₂ := by
    simp [lastEntry, hl3]
  have h4 : lastEntry n (l₂ ++ ⟨n, v₂⟩ :: l₃) = some v₂ :=
    lastEntry_append_some _ _ _ h2 _
  simp [lastEntry, h4]

theorem alookup_filter_some (p : String × Diff → Bool)
    (m : List (String × Diff)) (k : String) (d : Diff)
    (hnd : (m.map Prod.fst).Nodup)
    (h : alookup k (m.filter p) = some d) : alookup k m = some d := by
  have hf := alookup_filter p m k hnd
  cases hb : alookup k m with
  | none =>
    rw [hb] at hf
    have hf' : alookup k (m.filter p) = none := hf
    rw [hf'] at h
    cases h
  | some d' =>
    rw [hb] at hf
    have hf' : alookup k (m.filter p) =
        if p (k, d') = true then some d' else none := hf
    rw [hf'] at h
    by_cases hp : p (k, d') = true
    · rw [if_pos hp] at h
      exact h
    · rw [if_neg hp] at h
      cases h

/-- C7: in any snapshot in which the same package name appears more than once
within one section — arbitrary packages before, between and after the
duplicated occurrences, in either section, with `v₂` the version of the
last occurrence of the name in that section — the registry retains `(sec,
v₂)`; and every diff computed from that snapshot, against every other
snapshot and in either role, carries `v₂` (and `sec`) on the corresponding
side of the record for that name, in whichever category the record lands.
(For `sec = 'require'` the name must not also sit in the dev section, whose
pass runs later and would override the whole section, not just the earlier
duplicate.) -/
theorem duplicate_name_last_write_wins (sec : PkgSection) (L : Lock)
    (n v₁ v₂ : String) (l₁ l₂ l₃ : List ComposerPackage)
    (hs : sectionList L sec = l₁ ++ ⟨n, v₁⟩ :: (l₂ ++ ⟨n, v₂⟩ :: l₃))
    (hlast : n ∉ l₃.map ComposerPackage.name)
    (hother : sec = .require → lastEntry n L.packagesDev = none) :
    effectiveEntry L n = some (sec, v₂) ∧
    (∀ other : Lock, ∃ d, alookup n (buildDiffList L other) = some d ∧
        d.previousSection = some sec ∧ d.previousVersion = some v₂) ∧
    (∀ other : Lock, ∃ d, alookup n (buildDiffList other L) = some d ∧
        d.newSection = some sec ∧ d.newVersion = some v₂) ∧
    (∀ (other : Lock) (d : Diff),
        (alookup n (generateDiffFromLocks L other).added = some d ∨
         alookup n (generateDiffFromLocks L other).updated = some d ∨
         alookup n (generateDiffFromLocks L other).removed = some d) →
        d.previousSection = some sec ∧ d.previousVersion = some v₂) ∧
    (∀ (other : Lock) (d : Diff),
        (alookup n (generateDiffFromLocks other L).added = some d ∨
         alookup n (generateDiffFromLocks other L).updated = some d ∨
         alookup n (generateDiffFromLocks other L).removed = some d) →
        d.newSection = some sec ∧ d.newVersion = some v₂) := by
  have hsec : lastEntry n (sectionList L sec) = some v₂ := by
    rw [hs]
    exact lastEntry_dup_general n v₁ v₂ l₁ l₂ l₃ hlast
  have hef : effectiveEntry L n = some (sec, v₂) := by
    cases sec with
    | require =>
      have hdev : lastEntry n L.packagesDev = none := hother rfl
      have hpk : lastEntry n L.packages = some v₂ := hsec
      simp [effectiveEntry, hdev, hpk]
    | requireDev =>
      have hdev : lastEntry n L.packagesDev = some v₂ := hsec
      simp [effectiveEntry, hdev]
  have hb : ∀ other : Lock, alookup n (buildDiffList L other) =
      combine n (some (sec, v₂)) (effectiveEntry other n) := by
    intro other
    rw [buildDiffList_alookup, hef]
  have hb' : ∀ other : Lock, alookup n (buildDiffList other L) =
      combine n (effectiveEntry other n) (some (sec, v₂)) := by
    intro other
    rw [buildDiffList_alookup, hef]
  have hold : ∀ other : Lock, ∃ d,
      alookup n (buildDiffList L other) = some d ∧
      d.previousSection = some sec ∧ d.previousVersion = some v₂ := by
    intro other
    cases heo : effectiveEntry other n with
    | none =>
      exact ⟨_, by rw [hb other, heo]; rfl, rfl, rfl⟩
    | some sv =>
      obtain ⟨s, v⟩ := sv
      exact ⟨_, by rw [hb other, heo]; rfl, rfl, rfl⟩
  have hnew : ∀ other : Lock, ∃ d,
      alookup n (buildDiffList other L) = some d ∧
      d.newSection = some sec ∧ d.newVersion = some v₂ := by
    intro other
    cases heo : effectiveEntry other n with
    | none =>
      exact ⟨_, by rw [hb' other, heo]; rfl, rfl, rfl⟩
    | some sv =>
      obtain ⟨s, v⟩ := sv
      exact ⟨_, by rw [hb' other, heo]; rfl, rfl, rfl⟩
  refine ⟨hef, hold, hnew, ?_, ?_⟩
  · intro other d hd
    have hnd := buildDiffList_keys_nodup L other
    have hcat : alookup n (buildDiffList L other) = some d := by
      rcases hd with h | h | h <;> exact alookup_filter_some _ _ _ _ hnd h
    obtain ⟨d', hd', hps, hpv⟩ := hold other
    rw [hcat] at hd'
    cases hd'
    exact ⟨hps, hpv⟩
  · intro other d hd
    have hnd := buildDiffList_keys_nodup other L
    have hcat : alookup n (buildDiffList other L) = some d := by
      rcases hd with h | h | h <;> exact alookup_filter_some _ _ _ _ hnd h
    obtain ⟨d', hd', hns, hnv⟩ := hnew other
    rw [hcat] at hd'
    cases hd'
    exact ⟨hns, hnv⟩

/-- Witness for C7: the direct section holds `a` at versions `1` then `2`,
followed by a trailing package `b`; the registry keeps `("require", "2")`,
and diffing against a snapshot holding `a` at version `9` puts `a` in the
updated category with `previousVersion = "2"`. -/
theorem duplicate_name_last_write_wins_witness :
    effectiveEntry
        { packages := [⟨"a", "1"⟩, ⟨"a", "2"⟩, ⟨"b", "3"⟩], packagesDev := [] }
        "a" = some (.require, "2") ∧
    (∃ d, alookup "a" (buildDiffList
        { packages := [⟨"a", "1"⟩, ⟨"a", "2"⟩, ⟨"b", "3"⟩], packagesDev := [] }
        { packages := [⟨"a", "9"⟩], packagesDev := [] }) = some d ∧
      d.previousSection = some .require ∧ d.previousVersion = some "2") ∧
    (alookup "a" (generateDiffFromLocks
        { packages := [⟨"a", "1"⟩, ⟨"a", "2"⟩, ⟨"b", "3"⟩], packagesDev := [] }
        { packages := [⟨"a", "9"⟩], packagesDev := [] }).updated =
      some { name := "a", previousSection := some .require,
             newSection := some .require, previousVersion := some "2",
             newVersion := some "9" }) ∧
    ({ name := "a", previousSection := some PkgSection.require,
       newSection := some PkgSection.require, previousVersion := some "2",
       newVersion := some "9" } : Diff).previousVersion = some "2" := by
  have h := duplicate_name_last_write_wins .require
    { packages := [⟨"a", "1"⟩, ⟨"a", "2"⟩, ⟨"b", "3"⟩], packagesDev := [] }
    "a" "1" "2" [] [] [⟨"b", "3"⟩] rfl (by decide) (fun _ => rfl)
  refine ⟨h.1, h.2.1 { packages := [⟨"a", "9"⟩], packagesDev := [] }, by decide, ?_⟩
  exact (h.2.2.2.1 { packages := [⟨"a", "9"⟩], packagesDev := [] } _
    (Or.inr (Or.inl (by decide)))).2

/-! ### The inline classifier of content.js versus the modular classifier -/

theorem isUpdatedInline_eq (d : Diff) :
    isUpdatedInline d =
      (isUpdated d && decide (d.previousVersion ≠ d.newVersion)) := by
  unfold isUpdated isUpdatedInline
  by_cases hv : d.previousVersion = d.newVersion <;>
    by_cases hs : d.previousSection = d.newSection <;>
      simp [hv, hs]

theorem filter_updatedInline_eq (dl : List (String × Diff)) :
    dl.filter (fun e => isUpdatedInline e.2) =
      (dl.filter (fun e => isUpdated e.2)).filter
        (fun e => decide (e.2.previousVersion ≠ e.2.newVersion)) := by
  induction dl with
  | nil => rfl
  | cons a dl ih =>
    simp only [List.filter_cons]
    cases hu : isUpdated a.2 <;>
      cases hv : decide (a.2.previousVersion ≠ a.2.newVersion)
    · simp [isUpdatedInline_eq, hu, hv, ih, Bool.and_comm]
    · simp [isUpdatedInline_eq, hu, hv, ih, Bool.and_comm]
    · have hv' : a.2.previousVersion = a.2.newVersion := by simpa using hv
      simp [isUpdatedInline_eq, hu, hv, ih, List.filter_cons, Bool.and_comm,
        hv']
    · have hv' : ¬ a.2.previousVersion = a.2.newVersion := of_decide_eq_true hv
      simp [isUpdatedInline_eq, hu, hv, ih, List.filter_cons, Bool.and_comm,
        hv']

/-- Counterexample for C10: a package present on both sides with the same
version but a different section (moved from `require` to `require-dev`) is
reported as updated by the modular classifier but silently dropped by the
inline classifier of content.js, so the two results differ. -/
theorem getDiff_generateDiff_disagree :
    getDiff { packages := [⟨"a/a", "1.0"⟩], packagesDev := [] }
        { packages := [], packagesDev := [⟨"a/a", "1.0"⟩] } ≠
      generateDiffFromLocks
        { packages := [⟨"a/a", "1.0"⟩], packagesDev := [] }
        { packages := [], packagesDev := [⟨"a/a", "1.0"⟩] } := by
  decide

/-- C10 (amended): for every pair of well-formed locks the two classifiers
produce equal `added` and `removed` mappings, and the inline classifier's
`updated` mapping is the modular one restricted to records whose version
actually changed — they agree exactly when no package keeps its version while
changing section. -/
theorem getDiff_refines_generateDiff (oldLock newLock : Lock) :
    (getDiff oldLock newLock).added =
      (generateDiffFromLocks oldLock newLock).added ∧
    (getDiff oldLock newLock).removed =
      (generateDiffFromLocks oldLock newLock).removed ∧
    (getDiff oldLock newLock).updated =
      (generateDiffFromLocks oldLock newLock).updated.filter
        (fun e => decide (e.2.previousVersion ≠ e.2.newVersion)) := by
  refine ⟨rfl, rfl, ?_⟩
  exact filter_updatedInline_eq _

/-! ### HTML rendering (composer-diff.js lines 152-292) -/

/-- String form of a section value as it is interpolated into the HTML. -/
def sectionName : PkgSection → String
  | .require => "require"
  | .requireDev => "require-dev"

/-- JS template interpolation of a possibly-null version. -/
def showOptVersion : Option String → String
  | some v => v
  | none => "null"

/-- JS template interpolation of a possibly-null section. -/
def showOptSection : Option PkgSection → String
  | some s => sectionName s
  | none => "null"

/-- Shared table scaffolding of the three generators (heading plus
`Package`/`Version`/`Section` header row); the literal indentation and
newlines of the JS template strings are elided. -/
def packagesTableHtml (heading : String) (rows : String) : String :=
  "<h2>" ++ heading ++
    "</h2><table><thead><tr><th>Package</th><th>Version</th><th>Section</th></tr></thead><tbody>"
    ++ rows ++ "</tbody></table>"

/-- One row of the added-packages table (composer-diff.js lines 175-181). -/
def addedRowHtml (d : Diff) : String :=
  "<tr class=\"package-added\"><td>" ++ d.name ++ "</td><td>" ++
    showOptVersion d.newVersion ++ "</td><td>" ++
    showOptSection d.newSection ++ "</td></tr>"

/-- Lines 157-186 of composer-diff.js: empty string when the category is
empty, otherwise the table. -/
def generateAddedPackagesHtml (addedPackages : List (String × Diff)) : String :=
  if addedPackages.length = 0 then ""
  else
    packagesTableHtml "Added packages"
      (String.join (addedPackages.map (fun e => addedRowHtml e.2)))

/-- One row of the updated-packages table (composer-diff.js lines 209-228):
each of the version and section cells shows a from/to arrow only when that
field changed, otherwise the single new value. -/
def updatedRowHtml (d : Diff) : String :=
  let versionCell :=
    if d.previousVersion ≠ d.newVersion then
      "<span class=\"version-from\">" ++ showOptVersion d.previousVersion ++
        "</span> → <span class=\"version-to\">" ++
        showOptVersion d.newVersion ++ "</span>"
    else showOptVersion d.newVersion
  let sectionCell :=
    if d.previousSection ≠ d.newSection then
      "<span class=\"section-from\">" ++ showOptSection d.previousSection ++
        "</span> → <span class=\"section-to\">" ++
        showOptSection d.newSection ++ "</span>"
    else showOptSection d.newSection
  "<tr class=\"package-updated\"><td>" ++ d.name ++ "</td><td>" ++
    versionCell ++ "</td><td>" ++ sectionCell ++ "</td></tr>"

/-- Lines 193-233 of composer-diff.js. -/
def generateUpdatedPackagesHtml (updatedPackages : List (String × Diff)) :
    String :=
  if updatedPackages.length = 0 then ""
  else
    packagesTableHtml "Updated packages"
      (String.join (updatedPackages.map (fun e => updatedRowHtml e.2)))

/-- One row of the removed-packages table (composer-diff.js lines 258-264). -/
def removedRowHtml (d : Diff) : String :=
  "<tr class=\"package-removed\"><td>" ++ d.name ++ "</td><td>" ++
    showOptVersion d.previousVersion ++ "</td><td>" ++
    showOptSection d.previousSection ++ "</td></tr>"

/-- Lines 240-269 of composer-diff.js. -/
def generateRemovedPackagesHtml (removedPackages : List (String × Diff)) :
    String :=
  if removedPackages.length = 0 then ""
  else
    packagesTableHtml "Removed packages"
      (String.join (removedPackages.map (fun e => removedRowHtml e.2)))

/-- The placeholder emitted when nothing changed (composer-diff.js
line 288). -/
def noChangesHtml : String := "<p>No changes found in composer.lock file.</p>"

/-- Lines 277-292 of composer-diff.js, after the diff is computed: the three
blocks, the all-empty check (`!addedHtml && !updatedHtml && !removedHtml`,
falsy exactly on the empty string), and the newline join. -/
def renderDiffHtml (r : DiffResult) : String :=
  let addedHtml := generateAddedPackagesHtml r.added
  let updatedHtml := generateUpdatedPackagesHtml r.updated
  let removedHtml := generateRemovedPackagesHtml r.removed
  if addedHtml = "" ∧ updatedHtml = "" ∧ removedHtml = "" then noChangesHtml
  else String.intercalate "\n" [addedHtml, updatedHtml, removedHtml]

/-- Lines 277-292 of composer-diff.js: `generateHtml(oldContent,
newContent)`. -/
def generateHtml (oldContent newContent : LockContent) : String :=
  renderDiffHtml (generateDiff oldContent newContent)

/-! ### Exception-monad embedding of the public entry points over the full
JSON.parse outcome space

`JSON.parse` can also succeed with a value that is not a lock-shaped object
(`'null'`, a number, `'{"packages": 5}'`, ...).  The types below cover that
full outcome space; the entry points are re-expressed in the exception
monad so that uncaught TypeErrors of the source show up as `Except.error`
results. -/

/-- C8: when all three diff categories are empty — in particular for a
snapshot diffed against itself — generateHtml returns the single "no
changes" placeholder block; and each category block is the empty string
whenever its category is empty. -/
theorem generateHtml_empty_placeholder :
    (∀ c₁ c₂ : LockContent,
      (generateDiff c₁ c₂).added = [] → (generateDiff c₁ c₂).updated = [] →
      (generateDiff c₁ c₂).removed = [] →
        generateHtml c₁ c₂ = noChangesHtml) ∧
    (∀ c : LockContent, generateHtml c c = noChangesHtml) ∧
    generateAddedPackagesHtml [] = "" ∧
    generateUpdatedPackagesHtml [] = "" ∧
    generateRemovedPackagesHtml [] = "" := by
  have hmain : ∀ c₁ c₂ : LockContent,
      (generateDiff c₁ c₂).added = [] → (generateDiff c₁ c₂).updated = [] →
      (generateDiff c₁ c₂).removed = [] →
        generateHtml c₁ c₂ = noChangesHtml := by
    intro c₁ c₂ h1 h2 h3
    simp only [generateHtml, renderDiffHtml, h1, h2, h3]
    rfl
  refine ⟨hmain, ?_, rfl, rfl, rfl⟩
  intro c
  have hself : generateDiff c c = { added := [], updated := [], removed := [] } :=
    generateDiffFromLocks_self _
  exact hmain c c (by rw [hself]) (by rw [hself]) (by rw [hself])

/-- Witness for C8: two empty snapshots give the placeholder via the
all-empty branch. -/
theorem generateHtml_empty_placeholder_witness :
    generateHtml (.valid { packages := some [], packagesDev := some [] })
        (.valid { packages := some [], packagesDev := some [] }) =
      noChangesHtml :=
  generateHtml_empty_placeholder.1 _ _ rfl rfl rfl

/-! ### DOM model for the panel inserter (ui.js lines 195-225, content.js
lines 723-828)

An element is a class name plus a list of child elements (a mutual pair so
that every operation is structurally recursive and computable by the
kernel).  Only class-based queries matter to the panel inserter's
removal/insertion logic, so text content and non-class attributes are not
represented; the panel created by `createDiffContainer` carries no class
from any selector list, and its `innerHTML` payload contains no element
bearing the reserved class or a content-selector class. -/

mutual
inductive Element where
  | mk (className : String) (children : ElementList)
inductive ElementList where
  | nil
  | cons (head : Element) (tail : ElementList)
end

/-- Class attribute of an element. -/
def Element.className : Element → String
  | .mk c _ => c

mutual
def countCl (c : String) : Element → Nat
  | .mk cls cs => (if cls = c then 1 else 0) + countClList c cs
def countClList (c : String) : ElementList → Nat
  | .nil => 0
  | .cons e es => countCl c e + countClList c es
end

/-- Whether `querySelector('.c')` on the children list finds a match. -/
def containsCl (c : String) (es : ElementList) : Bool :=
  decide (0 < countClList c es)

/-- Effect of `element.querySelector('.c')?.remove()` on a children list:
the first element with class `c` in document (preorder) order is removed
together with its subtree; nothing happens when there is none. -/
def removeFirstIn (c : String) : ElementList → ElementList
  | .nil => .nil
  | .cons (.mk cls cs) es =>
    if cls = c then es
    else if containsCl c cs then .cons (.mk cls (removeFirstIn c cs)) es
    else .cons (.mk cls cs) (removeFirstIn c es)

/-- Effect of `target.prepend(panel)` where `target` is the first element
with class `c` in document order within the list: the panel becomes the
target's first child. -/
def prependInFirst (c : String) (panel : Element) : ElementList → ElementList
  | .nil => .nil
  | .cons (.mk cls cs) es =>
    if cls = c then .cons (.mk cls (.cons panel cs)) es
    else if containsCl c cs then .cons (.mk cls (prependInFirst c panel cs)) es
    else .cons (.mk cls cs) (prependInFirst c panel es)

/-- The reserved marker class of the panel. -/
def composerDiffContainerClass : String := "composer-diff-container"

/-- The `CONTENT_SELECTORS` list of ui.js lines 37-47 (the same classes are
tried inline in content.js lines 764-774); every entry is a single class
selector. -/
def contentSelectorClasses : List String :=
  ["diff-content", "file-content", "diff-file-content", "js-file-content",
   "file-holder", "diff-table", "content-wrapper", "diff-wrap-lines",
   "diff-wrap"]

/-- ui.js lines 161-188 / content.js lines 730-758: the panel element — a
div with the reserved `composer-diff-container` class holding a header (with
its title) and a `markdown-content` div that receives the rendered HTML
string. -/
def createDiffContainer (_htmlContent : String) : Element :=
  .mk composerDiffContainerClass
    (.cons (.mk "composer-diff-header"
        (.cons (.mk "composer-diff-title" .nil) .nil))
      (.cons (.mk "markdown-content" .nil) .nil))

/-- ui.js lines 206-211 / content.js lines 723-727: remove the pre-existing
panel found by `composerLockElement.querySelector('.composer-diff-container')`
(a descendant search, the candidate container itself excluded). -/
def removeExistingDiff : Element → Element
  | .mk cls cs => .mk cls (removeFirstIn composerDiffContainerClass cs)

/-- ui.js lines 195-225 / content.js lines 723-803 on the candidate container
resolved by the anchor locator: remove any pre-existing panel, build the new
panel, pick the content target with the first matching content selector
(`findContentElement`, falling back to the container itself), and prepend the
panel there. -/
def insertDiffIntoPage (htmlContent : String) (composerLockElement : Element) :
    Element :=
  match removeExistingDiff composerLockElement with
  | .mk cls cs =>
    let diffContainer := createDiffContainer htmlContent
    match contentSelectorClasses.find? (fun c => containsCl c cs) with
    | some c => .mk cls (prependInFirst c diffContainer cs)
    | none => .mk cls (.cons diffContainer cs)

/-! ### Counting lemmas for the panel inserter -/

theorem countCl_mk (c cls : String) (cs : ElementList) :
    countCl c (.mk cls cs) = (if cls = c then 1 else 0) + countClList c cs :=
  rfl

theorem countClList_cons (c : String) (e : Element) (es : ElementList) :
    countClList c (.cons e es) = countCl c e + countClList c es :=
  rfl

theorem containsCl_true_iff (c : String) (es : ElementList) :
    containsCl c es = true ↔ 0 < countClList c es := by
  simp [containsCl]

theorem countClList_removeFirstIn (c : String) :
    ∀ es : ElementList, countClList c es ≤ 1 →
      countClList c (removeFirstIn c es) = 0
  | .nil, _ => by simp [removeFirstIn, countClList]
  | .cons (.mk cls cs) es, h => by
    by_cases h1 : cls = c
    · simp only [removeFirstIn, if_pos h1]
      simp only [countClList, countCl, if_pos h1] at h
      omega
    · by_cases h2 : containsCl c cs = true
      · simp only [removeFirstIn, if_neg h1, if_pos h2, countClList, countCl,
          if_neg h1]
        have hpos : 0 < countClList c cs := (containsCl_true_iff c cs).mp h2
        simp only [countClList, countCl, if_neg h1] at h
        have hcs : countClList c cs ≤ 1 := by omega
        have hr := countClList_removeFirstIn c cs hcs
        omega
      · simp only [removeFirstIn, if_neg h1, if_neg h2, countClList, countCl,
          if_neg h1]
        have hz : countClList c cs = 0 := by
          rw [containsCl_true_iff] at h2
          omega
        simp only [countClList, countCl, if_neg h1] at h
        have hes : countClList c es ≤ 1 := by omega
        have hr := countClList_removeFirstIn c es hes
        omega

theorem countClList_prependInFirst (cp c : String) (panel : Element) :
    ∀ es : ElementList, containsCl c es = true →
      countClList cp (prependInFirst c panel es) =
        countCl cp panel + countClList cp es
  | .nil, hco => by
    rw [containsCl_true_iff] at hco
    simp [countClList] at hco
  | .cons (.mk cls cs) es, hco => by
    by_cases h1 : cls = c
    · simp only [prependInFirst, if_pos h1, countClList_cons, countCl_mk]
      omega
    · by_cases h2 : containsCl c cs = true
      · simp only [prependInFirst, if_neg h1, if_pos h2, countClList_cons,
          countCl_mk]
        have hr := countClList_prependInFirst cp c panel cs h2
        omega
      · simp only [prependInFirst, if_neg h1, if_neg h2, countClList_cons,
          countCl_mk]
        have hes : containsCl c es = true := by
          rw [containsCl_true_iff] at hco ⊢
          rw [containsCl_true_iff] at h2
          simp only [countClList_cons, countCl_mk, if_neg h1] at hco
          omega
        have hr := countClList_prependInFirst cp c panel es hes
        omega

theorem countCl_createDiffContainer (htmlContent : String) :
    countCl composerDiffContainerClass (createDiffContainer htmlContent) = 1 :=
  rfl

theorem insertDiffIntoPage_className (htmlContent : String) (t : Element) :
    (insertDiffIntoPage htmlContent t).className = t.className := by
  cases t with
  | mk cls cs =>
    simp only [insertDiffIntoPage, removeExistingDiff]
    cases contentSelectorClasses.find?
        (fun c => containsCl c (removeFirstIn composerDiffContainerClass cs))
      <;> rfl

theorem countCl_insertDiffIntoPage (htmlContent : String) (t : Element)
    (hroot : t.className ≠ composerDiffContainerClass)
    (hcnt : countCl composerDiffContainerClass t ≤ 1) :
    countCl composerDiffContainerClass (insertDiffIntoPage htmlContent t) = 1 := by
  cases t with
  | mk cls cs =>
    have hclsne : ¬ cls = composerDiffContainerClass := hroot
    rw [countCl_mk, if_neg hclsne] at hcnt
    have hcs : countClList composerDiffContainerClass cs ≤ 1 := by omega
    have hrem : countClList composerDiffContainerClass
        (removeFirstIn composerDiffContainerClass cs) = 0 :=
      countClList_removeFirstIn _ cs hcs
    simp only [insertDiffIntoPage, removeExistingDiff]
    cases hf : contentSelectorClasses.find?
        (fun c => containsCl c (removeFirstIn composerDiffContainerClass cs))
      with
    | some c =>
      have hcont : containsCl c
          (removeFirstIn composerDiffContainerClass cs) = true := by
        have hp := List.find?_some hf
        simpa using hp
      rw [countCl_mk, if_neg hclsne,
        countClList_prependInFirst _ _ _ _ hcont,
        countCl_createDiffContainer, hrem]
    | none =>
      rw [countCl_mk, if_neg hclsne, countClList_cons,
        countCl_createDiffContainer, hrem]

/-- C3: calling the panel inserter twice in succession on the candidate
container (the container itself not being a panel, and holding at most one
pre-existing panel) leaves exactly one element with the reserved
`composer-diff-container` class — each call first removes the pre-existing
panel and then inserts the single fresh one. -/
theorem insertDiffIntoPage_twice_single_panel (htmlContent : String)
    (t : Element)
    (hroot : t.className ≠ composerDiffContainerClass)
    (hcnt : countCl composerDiffContainerClass t ≤ 1) :
    countCl composerDiffContainerClass
      (insertDiffIntoPage htmlContent t) = 1 ∧
    countCl composerDiffContainerClass
      (insertDiffIntoPage htmlContent (insertDiffIntoPage htmlContent t)) = 1 := by
  have h1 := countCl_insertDiffIntoPage htmlContent t hroot hcnt
  have hroot2 : (insertDiffIntoPage htmlContent t).className ≠
      composerDiffContainerClass := by
    rw [insertDiffIntoPage_className]; exact hroot
  have h2 := countCl_insertDiffIntoPage htmlContent
    (insertDiffIntoPage htmlContent t) hroot2 (by omega)
  exact ⟨h1, h2⟩

/-- Witness for C3: a `diff-file` container holding a `diff-content` region,
with no pre-existing panel. -/
theorem insertDiffIntoPage_twice_single_panel_witness :
    countCl composerDiffContainerClass
      (insertDiffIntoPage "<p>x</p>"
        (.mk "diff-file" (.cons (.mk "diff-content" .nil) .nil))) = 1 ∧
    countCl composerDiffContainerClass
      (insertDiffIntoPage "<p>x</p>"
        (insertDiffIntoPage "<p>x</p>"
          (.mk "diff-file" (.cons (.mk "diff-content" .nil) .nil)))) = 1 :=
  insertDiffIntoPage_twice_single_panel "<p>x</p>"
    (.mk "diff-file" (.cons (.mk "diff-content" .nil) .nil))
    (by decide) (by decide)

/-! ### Insertion fallback chain (content.js lines 800-828) -/

/-- The three DOM write techniques of the insertion code, in the order they
appear: `fileContent.prepend`, `fileContent.appendChild`, and
`document.body.prepend`. -/
inductive InsertTechnique where
  | prepend
  | append
  | bodyPrepend
deriving DecidableEq, Repr

/-- Lines 800-828 of content.js: try `prepend`; on an exception try
`appendChild`; on a second exception try `document.body.prepend`; a third
exception is only logged.  Each Boolean says whether the corresponding DOM
call throws; the result is the list of techniques attempted in order,
paired with whether `diffGenerated` was set (some technique succeeded). -/
def insertWithFallbacks (prependFails appendFails bodyPrependFails : Bool) :
    List InsertTechnique × Bool :=
  if prependFails = false then
    ([.prepend], true)
  else
    if appendFails = false then
      ([.prepend, .append], true)
    else
      if bodyPrependFails = false then
        ([.prepend, .append, .bodyPrepend], true)
      else
        ([.prepend, .append, .bodyPrepend], false)

/-- C4: the prepend technique is always attempted first; append-as-last-child
is attempted exactly when the prepend raised, and prepending at the document
body is attempted exactly when the append also raised. -/
theorem insertWithFallbacks_chain
    (prependFails appendFails bodyPrependFails : Bool) :
    (insertWithFallbacks prependFails appendFails bodyPrependFails).1.head? =
      some .prepend ∧
    (InsertTechnique.append ∈
        (insertWithFallbacks prependFails appendFails bodyPrependFails).1 ↔
      prependFails = true) ∧
    (InsertTechnique.bodyPrepend ∈
        (insertWithFallbacks prependFails appendFails bodyPrependFails).1 ↔
      (prependFails = true ∧ appendFails = true)) := by
  cases prependFails <;> cases appendFails <;> cases bodyPrependFails <;>
    simp [insertWithFallbacks]

/-! ### Scroll-listener guard (ui.js lines 231-256, content.js lines
288-304) -/

/-- The observable window state for listener registration: the
`window.composerDiffScrollListenerAdded` presence flag, and how many scroll
watchers have been registered with `window.addEventListener`. -/
structure ScrollListenerState where
  composerDiffScrollListenerAdded : Bool
  listenerCount : Nat
deriving DecidableEq, Repr

/-- ui.js lines 231-256 (content.js lines 288-304 inline the same guard):
`addScrollEventListener` returns early when the presence flag is already
set; otherwise it sets the flag and registers exactly one scroll
listener. -/
def addScrollEventListener (s : ScrollListenerState) : ScrollListenerState :=
  if s.composerDiffScrollListenerAdded then s
  else { composerDiffScrollListenerAdded := true
         listenerCount := s.listenerCount + 1 }

/-- Window state before any call: flag unset, no listener. -/
def initialScrollState : ScrollListenerState :=
  { composerDiffScrollListenerAdded := false, listenerCount := 0 }

/-- State after `n` successive calls to `addScrollEventListener`. -/
def iterateScrollCalls : Nat → ScrollListenerState
  | 0 => initialScrollState
  | n + 1 => addScrollEventListener (iterateScrollCalls n)

theorem iterateScrollCalls_cases (n : Nat) :
    iterateScrollCalls n = initialScrollState ∨
    iterateScrollCalls n =
      { composerDiffScrollListenerAdded := true, listenerCount := 1 } := by
  induction n with
  | zero => exact Or.inl rfl
  | succ n ih =>
    rcases ih with h | h <;>
      simp [iterateScrollCalls, h, addScrollEventListener,
        initialScrollState]

/-- C9: across any number of repeated calls at most one scroll watcher is
ever registered, and a call made while the presence flag is already set is a
no-op (registers no second watcher). -/
theorem scroll_listener_registered_once :
    (∀ n : Nat, (iterateScrollCalls n).listenerCount ≤ 1) ∧
    (∀ s : ScrollListenerState,
      s.composerDiffScrollListenerAdded = true →
        addScrollEventListener s = s) := by
  constructor
  · intro n
    rcases iterateScrollCalls_cases n with h | h <;> simp [h,
      initialScrollState]
  · intro s hs
    simp [addScrollEventListener, hs]

/-- Witness for C9: five successive calls leave a single registered watcher,
and a call on a flagged state changes nothing. -/
theorem scroll_listener_registered_once_witness :
    (iterateScrollCalls 5).listenerCount ≤ 1 ∧
    addScrollEventListener
        { composerDiffScrollListenerAdded := true, listenerCount := 1 } =
      { composerDiffScrollListenerAdded := true, listenerCount := 1 } :=
  ⟨scroll_listener_registered_once.1 5,
   scroll_listener_registered_once.2 _ rfl⟩
